import Mathlib

/-!
Shallow embedding of the Gramasetu voice-assistant widget (src/va.js) and the
backend chatbot context handler (the Express `/api/cb-chat` route), together
with theorems settling the specification claims about them.

Strings are modelled by Lean `String`; JavaScript truthiness on strings is
modelled by comparison with the empty string.  Event-driven state is modelled
as an explicit record of the module-level flags of va.js together with a step
function applying each event handler's synchronous flag mutations.
-/

namespace Gramasetu

/-! ## Language Detector (va.js, `detectLangFromText`) -/

/-- A code point of the Kannada Unicode block, U+0C80 to U+0CFF
(va.js `KANNADA_REGEX`). -/
def isKannadaChar (c : Char) : Bool :=
  decide (0x0C80 ≤ c.toNat) && decide (c.toNat ≤ 0x0CFF)

/-- va.js `detectLangFromText(text)`: absent (`none`) or empty text is falsy
and yields "en"; otherwise "kn" exactly when some character lies in the
Kannada block, else "en". -/
def detectLangFromText : Option String → String
  | none => "en"
  | some t => if t = "" then "en" else if t.data.any isKannadaChar then "kn" else "en"

/-! ## Conversation Relay (va.js, `sendMessageToAPI`) -/

/-- A character matched by the va.js regex `/[A-Za-z]/`. -/
def isLatinLetter (c : Char) : Bool :=
  (decide (65 ≤ c.toNat) && decide (c.toNat ≤ 90)) ||
  (decide (97 ≤ c.toNat) && decide (c.toNat ≤ 122))

/-- `/[A-Za-z]/.test(reply)` in `sendMessageToAPI`. -/
def containsLatin (s : String) : Bool := s.data.any isLatinLetter

/-- The localized placeholder used when `data.reply` is falsy. -/
def noAnswerMsg : String := "ಕ್ಷಮಿಸಿ — ಉತ್ತರ ಸಿಗಲಿಲ್ಲ."

/-- The bot bubble emitted on a non-2xx HTTP status. -/
def connErrorMsg : String := "⚠️ ಸಂಪರ್ಕ ದೋಷ."

/-- The bot bubble emitted from the `catch` block on a network/parse error. -/
def netErrorMsg : String := "⚠️ ದೋಷ. ಮತ್ತೆ ಪ್ರಯತ್ನಿಸಿ."

/-- Outcome of one `fetch(API_URL, ...)` round trip as observed by
`sendMessageToAPI`: a non-2xx status (`response.ok` false), a 2xx response
carrying an optional `reply` field, or a thrown network/parse error. -/
inductive ApiResponse where
  | httpError : ApiResponse
  | ok (reply : Option String) : ApiResponse
  | netError : ApiResponse
deriving DecidableEq

/-- `data.reply || "ಕ್ಷಮಿಸಿ — ಉತ್ತರ ಸಿಗಲಿಲ್ಲ."`: an absent or empty (falsy)
reply field is replaced by the placeholder. -/
def resolveReply : Option String → String
  | none => noAnswerMsg
  | some s => if s = "" then noAnswerMsg else s

/-- Observable side effects of `sendMessageToAPI`: a POST to `/api/chat`
(tagged with the call's `triedRetry` flag), a bubble appended to the chat
transcript via `addMessage("bot", ...)`, and a call to `speakOut`. -/
inductive Effect where
  | request (triedRetry : Bool) : Effect
  | addBot (msg : String) : Effect
  | speak (msg lang : String) : Effect
deriving DecidableEq

/-- va.js `sendMessageToAPI(text, lang, triedRetry)`, as the list of effects
it produces.  `resp b` is the network's answer to the call whose `triedRetry`
flag is `b` (the request body does not depend on `triedRetry`, so the retried
request is the same request).  Mirrors the source: on a non-ok response emit
the connection-error bubble and return; otherwise resolve the reply, and if
the language is "kn", the reply contains a Latin letter, and this is not
already a retry, recurse once with `triedRetry = true`, discarding this
reply; otherwise append the reply and speak it. -/
def sendMessageToAPI (lang : String) (resp : Bool → ApiResponse) (triedRetry : Bool) :
    List Effect :=
  Effect.request triedRetry ::
    match resp triedRetry with
    | ApiResponse.httpError => [Effect.addBot connErrorMsg]
    | ApiResponse.netError => [Effect.addBot netErrorMsg]
    | ApiResponse.ok r =>
      let reply := resolveReply r
      if lang = "kn" ∧ containsLatin reply = true ∧ triedRetry = false then
        sendMessageToAPI lang resp true
      else
        [Effect.addBot reply, Effect.speak reply lang]
termination_by (if triedRetry then 0 else 1)
decreasing_by simp_all

/-- The `triedRetry` tags of the requests issued during a call. -/
def requestsOf (effs : List Effect) : List Bool :=
  effs.filterMap fun e =>
    match e with
    | Effect.request b => some b
    | _ => none

/-- The transcript bubbles appended during a call. -/
def botMsgsOf (effs : List Effect) : List String :=
  effs.filterMap fun e =>
    match e with
    | Effect.addBot m => some m
    | _ => none

/-- The `speakOut` invocations made during a call. -/
def speaksOf (effs : List Effect) : List (String × String) :=
  effs.filterMap fun e =>
    match e with
    | Effect.speak m l => some (m, l)
    | _ => none

/-! ## Session State and the event handlers of va.js

va.js keeps three module-level flags: `isListening`, `isBotSpeaking` and
`wasListeningBeforeSpeak`.  Each DOM/speech event handler mutates them
synchronously; we record those mutations as a step function on the flag
record.  A handler may additionally schedule a deferred `startListening`
via `setTimeout`; the step function reports that as an optional delay in
milliseconds. -/

/-- The module-level Session State flags of va.js. -/
structure VAState where
  isListening : Bool
  isBotSpeaking : Bool
  wasListeningBeforeSpeak : Bool
deriving DecidableEq

/-- The widget's initial state: all flags false. -/
def initState : VAState := ⟨false, false, false⟩

/-- The events whose handlers mutate the Session State flags:
`recognition.onstart`, `recognition.onend`, the synchronous part of
`stopListening()`, `utter.onstart`, `utter.onend`, and the synchronous part
of `stopSpeaking()`.  Each can be triggered while the widget is open:
`recStart` follows any `recognition.start()` call (mic click), with no guard
on the speaking flag. -/
inductive VAEvent where
  | recStart : VAEvent
  | recEnd : VAEvent
  | micStop : VAEvent
  | speakStart : VAEvent
  | speakEnd : VAEvent
  | speakCancel : VAEvent
deriving DecidableEq

/-- One handler's synchronous flag mutations, from va.js:
`recognition.onstart` sets `isListening = true`; `recognition.onend` sets it
false; `stopListening()` sets it false; `utter.onstart` sets
`isBotSpeaking = true`, records `wasListeningBeforeSpeak = isListening` and
calls `stopListening()`; `utter.onend` sets `isBotSpeaking = false`,
schedules `setTimeout(() => startListening(), 200)` when
`wasListeningBeforeSpeak` was set, then clears that flag; `stopSpeaking()`
sets `isBotSpeaking = false`.  The second component is the delay of the
scheduled `startListening`, if one was scheduled. -/
def step : VAEvent → VAState → VAState × Option Nat
  | VAEvent.recStart, s => ({ s with isListening := true }, none)
  | VAEvent.recEnd, s => ({ s with isListening := false }, none)
  | VAEvent.micStop, s => ({ s with isListening := false }, none)
  | VAEvent.speakStart, s =>
      (⟨false, true, s.isListening⟩, none)
  | VAEvent.speakEnd, s =>
      (⟨s.isListening, false, false⟩,
        if s.wasListeningBeforeSpeak then some 200 else none)
  | VAEvent.speakCancel, s => ({ s with isBotSpeaking := false }, none)

/-- The state after a sequence of events, ignoring scheduled timers. -/
def run (es : List VAEvent) (s : VAState) : VAState :=
  es.foldl (fun s e => (step e s).1) s

/-! ## Speech Input Coordinator: recognition session objects -/

/-- A recognition session as va.js configures it: its BCP-47 locale tag and
whether each of its three handlers is still attached (`true`) or has been
nulled (`false`). -/
structure Recognition where
  lang : String
  onresult : Bool
  onerror : Bool
  onend : Bool
deriving DecidableEq

/-- va.js `initRecognition()`: creates a session bound to the current
locale ("kn-IN" when the current language is "kn", else "en-IN") with all
three handlers attached. -/
def initRecognition (currentLang : String) : Recognition :=
  { lang := if currentLang = "kn" then "kn-IN" else "en-IN"
    onresult := true, onerror := true, onend := true }

/-- va.js `recreateRecognition()`: when a session exists, nulls its `onend`
and `onerror` handlers, stops it, and drops the global reference.  Returns
the new value of the global `recognition` variable (always `none`) together
with the detached session object, whose remaining handler attachments govern
which of its late-arriving events are still acted upon. -/
def recreateRecognition (r : Option Recognition) :
    Option Recognition × Option Recognition :=
  match r with
  | none => (none, none)
  | some rec => (none, some { rec with onerror := false, onend := false })

/-- The locale flip performed by the language-badge click handler:
`getCurrentLang() === "kn" ? "en" : "kn"`. -/
def toggleLang (l : String) : String := if l = "kn" then "en" else "kn"

/-- va.js `stopListening()`: stops the session if one exists (the session
object itself is unchanged) and clears `isListening`.  Total: the
`recognition.stop()` call is wrapped in try/catch in the source. -/
def stopListening (s : VAState) (rec : Option Recognition) :
    VAState × Option Recognition :=
  ({ s with isListening := false }, rec)

/-! ## Speech Output Coordinator: synthesis and voice selection -/

/-- The observable state of `window.speechSynthesis`. -/
structure Synth where
  speaking : Bool
  pending : Bool
deriving DecidableEq

/-- va.js `stopSpeaking()`: cancels the synthesis queue when a synthesis
object exists and is speaking or has pending utterances, then clears
`isBotSpeaking`.  Total: absence of the capability (`none`) is a no-op on
the synthesis side. -/
def stopSpeaking (s : VAState) (synth : Option Synth) :
    VAState × Option Synth :=
  ({ s with isBotSpeaking := false },
    match synth with
    | none => none
    | some sy => if sy.speaking || sy.pending then some ⟨false, false⟩ else some sy)

/-- An available synthesis voice: its BCP-47 tag and display name. -/
structure Voice where
  lang : String
  name : String
deriving DecidableEq

/-- `true` when `needle` occurs contiguously in `hay`
(JavaScript `String.prototype.includes`). -/
def strIncludes (needle hay : List Char) : Bool :=
  match hay with
  | [] => needle.isEmpty
  | _ :: t => needle.isPrefixOf hay || strIncludes needle t

/-- Lower-cased character list of a string (`toLowerCase()`). -/
def lowerChars (s : String) : List Char := s.data.map Char.toLower

/-- The `femaleHints` list of `selectFemaleVoiceForLang`. -/
def femaleHints : List String :=
  ["female", "zira", "anya", "meera", "sangeet", "sangeetha", "google",
   "amy", "samantha", "alloy"]

/-- `v.lang && v.lang.toLowerCase().includes(lang === 'kn' ? 'kn' : 'en')`:
the voice's tag is truthy and contains the locale key. -/
def voiceLangMatches (v : Voice) (lang : String) : Bool :=
  v.lang ≠ "" && strIncludes (if lang = "kn" then ['k', 'n'] else ['e', 'n']) (lowerChars v.lang)

/-- `femaleHints.some(h => v.name.toLowerCase().includes(h))`. -/
def voiceHintMatches (v : Voice) : Bool :=
  femaleHints.any fun h => strIncludes h.data (lowerChars v.name)

/-- va.js `selectFemaleVoiceForLang(voices, lang)`: first voice matching
locale and hint; else first matching locale; else first matching a hint;
else the first voice; else `null`. -/
def selectFemaleVoiceForLang (voices : List Voice) (lang : String) : Option Voice :=
  match voices.find? (fun v => voiceLangMatches v lang && voiceHintMatches v) with
  | some v => some v
  | none =>
    match voices.find? (fun v => voiceLangMatches v lang) with
    | some v => some v
    | none =>
      match voices.find? voiceHintMatches with
      | some v => some v
      | none => voices.head?

/-- The utterance handed to `synth.speak` by `speakOut`. -/
structure Utterance where
  text : String
  lang : String
  voice : Option Voice
deriving DecidableEq

/-- va.js `speakOut(text, lang)`, reduced to what it hands the synthesis
engine: `none` when the capability is absent; otherwise an utterance with
the BCP-47 tag for `lang` and the selected voice (possibly `none`, in which
case `utter.voice` is left unset and playback still proceeds with the
system default). -/
def speakOut (text lang : String) (synth : Option Synth) (voices : List Voice) :
    Option Utterance :=
  match synth with
  | none => none
  | some _ =>
    some { text := text
           lang := if lang = "kn" then "kn-IN" else "en-IN"
           voice := selectFemaleVoiceForLang voices lang }

/-! ## Backend Conversation Context (`/api/cb-chat` in the server file) -/

/-- One entry of the backend's `cbChatContext` list. -/
structure CtxEntry where
  role : String
  content : String
  lang : String
deriving DecidableEq

/-- The language-switch reset at the top of the `/api/cb-chat` handler:
`if (cbChatContext.length > 0 && cbChatContext[0].lang && cbChatContext[0].lang !== language) cbChatContext = []`. -/
def resetOnLangSwitch (ctx : List CtxEntry) (language : String) : List CtxEntry :=
  match ctx with
  | [] => []
  | e :: _ => if e.lang ≠ "" && e.lang ≠ language then [] else ctx

/-- `if (cbChatContext.length > 10) cbChatContext = cbChatContext.slice(-10)`:
keep only the last 10 entries. -/
def sliceLast10 (ctx : List CtxEntry) : List CtxEntry :=
  if ctx.length > 10 then ctx.drop (ctx.length - 10) else ctx

/-- The `/api/cb-chat` handler's effect on `cbChatContext`.  `userMessage` is
the (possibly translated) message; an empty message is rejected with 400
before the context is touched.  Otherwise the language-switch reset runs,
the user entry is pushed, and then: when the model yields a usable reply
(`some reply`), the assistant entry is pushed and the list truncated to its
last 10 entries; when it does not (empty/absent content or a thrown error,
both answered with 500), the handler returns after the user push with no
truncation. -/
def cbChatHandler (ctx : List CtxEntry) (language userMessage : String)
    (modelReply : Option String) : List CtxEntry :=
  if userMessage = "" then ctx
  else
    let ctx1 := resetOnLangSwitch ctx language
    let ctx2 := ctx1 ++ [⟨"user", userMessage, language⟩]
    match modelReply with
    | none => ctx2
    | some reply => sliceLast10 (ctx2 ++ [⟨"assistant", reply, language⟩])

/-- A concrete 10-entry backend context, all tagged "en". -/
def ctxTen : List CtxEntry := List.replicate 10 ⟨"user", "m", "en"⟩

/-! ## Theorems -/

/-- C3: `detectLangFromText` is pure and total; it returns "kn" for every
present text containing at least one code point of the Kannada block
U+0C80 to U+0CFF, and "en" for every other input: text with no Kannada-block
character (in particular all-ASCII or empty text) and absent input. -/
theorem detectLangFromText_spec (t? : Option String) :
    (t? = none → detectLangFromText t? = "en")
  ∧ (∀ t, t? = some t → (∃ c ∈ t.data, isKannadaChar c = true) →
      detectLangFromText t? = "kn")
  ∧ (∀ t, t? = some t → (∀ c ∈ t.data, isKannadaChar c = false) →
      detectLangFromText t? = "en") := by
  refine ⟨fun h => by rw [h]; rfl, ?_, ?_⟩
  · rintro t rfl ⟨c, hc, hk⟩
    have hne : t ≠ "" := by
      rintro rfl
      have hnil : ("" : String).data = [] := rfl
      rw [hnil] at hc
      exact absurd hc (List.not_mem_nil c)
    have hany : t.data.any isKannadaChar = true := List.any_eq_true.mpr ⟨c, hc, hk⟩
    simp [detectLangFromText, hne, hany]
  · rintro t rfl hall
    by_cases hne : t = ""
    · rw [hne]; rfl
    · have hany : t.data.any isKannadaChar = false := by
        rw [List.any_eq_false]
        intro c hc
        simp [hall c hc]
      simp [detectLangFromText, hne, hany]

/-- Witness for C3 at concrete inputs: a Kannada greeting classifies as
"kn", an ASCII word as "en", and absent text as "en". -/
theorem detectLangFromText_spec_witness :
    detectLangFromText (some "ನಮಸ್ಕಾರ") = "kn"
  ∧ detectLangFromText (some "hello") = "en"
  ∧ detectLangFromText none = "en" := by
  refine ⟨?_, ?_, ?_⟩
  · exact (detectLangFromText_spec (some "ನಮಸ್ಕಾರ")).2.1 "ನಮಸ್ಕಾರ" rfl
      ⟨'ನ', by decide, by decide⟩
  · exact (detectLangFromText_spec (some "hello")).2.2 "hello" rfl (by decide)
  · exact (detectLangFromText_spec none).1 rfl

/-- C9: `stopListening` and `stopSpeaking` are idempotent and never fail:
for every flag state, recognition-session value (including an absent
capability) and synthesis state (including an absent capability), a second
call is a no-op, and after the call the state is not listening, not
speaking, and the synthesis queue holds nothing in progress or pending. -/
theorem stop_idempotent (s : VAState) (rec : Option Recognition)
    (synth : Option Synth) :
    stopListening (stopListening s rec).1 (stopListening s rec).2
      = stopListening s rec
  ∧ (stopListening s rec).1.isListening = false
  ∧ stopSpeaking (stopSpeaking s synth).1 (stopSpeaking s synth).2
      = stopSpeaking s synth
  ∧ (stopSpeaking s synth).1.isBotSpeaking = false
  ∧ ((stopSpeaking s synth).2.map Synth.speaking).getD false = false
  ∧ ((stopSpeaking s synth).2.map Synth.pending).getD false = false := by
  refine ⟨rfl, rfl, ?_, rfl, ?_, ?_⟩ <;>
    rcases synth with _ | ⟨sp, pe⟩ <;>
      first
        | rfl
        | cases sp <;> cases pe <;> rfl

/-- C4: on the `utter.onend` event, a restart of listening is scheduled
exactly when listening was active immediately before the corresponding
`utter.onstart` (which recorded it in `wasListeningBeforeSpeak`), with the
fixed 200 ms delay; the resume flag is cleared by the handler, no other
event handler ever schedules a restart (so no restart precedes playback
completion), and a following playback cycle begun without prior listening
schedules no restart. -/
theorem speakEnd_resume (s : VAState) :
    (step VAEvent.speakEnd (step VAEvent.speakStart s).1).2
      = (if s.isListening then some 200 else none)
  ∧ (step VAEvent.speakEnd (step VAEvent.speakStart s).1).1.wasListeningBeforeSpeak
      = false
  ∧ (∀ e : VAEvent, (step e s).2
      = if e = VAEvent.speakEnd ∧ s.wasListeningBeforeSpeak = true
        then some 200 else none)
  ∧ (step VAEvent.speakEnd
      (step VAEvent.speakStart
        (step VAEvent.speakEnd (step VAEvent.speakStart s).1).1).1).2 = none := by
  refine ⟨rfl, rfl, ?_, rfl⟩
  intro e
  cases e <;> cases hw : s.wasListeningBeforeSpeak <;> simp [step, hw]

/-- C1 counterexample: the claimed mutual exclusion fails on the code.
Starting from the initial state, playing speech (`utter.onstart`) and then
starting recognition (a mic click during playback fires
`recognition.onstart`, which is not guarded by the speaking flag) reaches a
state in which `isListening` and `isBotSpeaking` are both true. -/
theorem both_flags_true_reachable :
    (run [VAEvent.speakStart, VAEvent.recStart] initState).isListening = true
  ∧ (run [VAEvent.speakStart, VAEvent.recStart] initState).isBotSpeaking = true :=
  ⟨rfl, rfl⟩

/-- C1 amended: the `utter.onstart` transition of `speakOut` unconditionally
forces listening off and records in `wasListeningBeforeSpeak` whether
listening was active, so immediately after speech playback starts the two
flags are never both true (global mutual exclusion over all reachable
states does not hold, since `recognition.onstart` during playback sets both
flags). -/
theorem speakStart_forces_listening_off (s : VAState) :
    (step VAEvent.speakStart s).1.isListening = false
  ∧ (step VAEvent.speakStart s).1.isBotSpeaking = true
  ∧ (step VAEvent.speakStart s).1.wasListeningBeforeSpeak = s.isListening
  ∧ ((step VAEvent.speakStart s).1.isListening
      && (step VAEvent.speakStart s).1.isBotSpeaking) = false :=
  ⟨rfl, rfl, rfl, rfl⟩

/-- C5: evaluating the teardown at a concrete in-flight session.
`recreateRecognition` drops the global reference and nulls the invalidated
session's `onerror` and `onend` handlers, but leaves `onresult` attached,
so a late-arriving result event of the invalidated session is still acted
upon; the next `initRecognition` after the toggle binds a fresh session
with the new locale. -/
theorem recreateRecognition_leaves_onresult :
    recreateRecognition (some (initRecognition "en"))
      = (none, some ⟨"en-IN", true, false, false⟩)
  ∧ initRecognition (toggleLang "en") = ⟨"kn-IN", true, true, true⟩ :=
  ⟨rfl, rfl⟩

/-- A call with `triedRetry = true` never recurses, so it issues exactly its
own request. -/
lemma requestsOf_retried (lang : String) (resp : Bool → ApiResponse) :
    requestsOf (sendMessageToAPI lang resp true) = [true] := by
  rw [sendMessageToAPI]
  cases h : resp true with
  | httpError => rfl
  | netError => rfl
  | ok r => simp [requestsOf]

/-- Peeling a leading request effect off the request-tag projection. -/
lemma requestsOf_cons_request (b : Bool) (effs : List Effect) :
    requestsOf (Effect.request b :: effs) = b :: requestsOf effs := rfl

/-- C2: the relay re-issues its request exactly once if and only if the
locale is "kn", the received reply (after the falsy-default) contains a
Latin letter, and the call is not already a retry; in the retry case the
call's effects are its own request followed by exactly the retried call's
effects, so only the second reply reaches the transcript and the speaker;
on "kn" without Latin content the single reply is appended and spoken with
no retry; non-2xx and network failures trigger no retry; a call already
flagged as retry issues no further request; and for locale "en" exactly one
request is issued no matter what the response is. -/
theorem sendMessageToAPI_retry_policy (resp : Bool → ApiResponse) :
    (∀ r, resp false = ApiResponse.ok r → containsLatin (resolveReply r) = true →
        sendMessageToAPI "kn" resp false
          = Effect.request false :: sendMessageToAPI "kn" resp true
        ∧ requestsOf (sendMessageToAPI "kn" resp false) = [false, true])
  ∧ (∀ r, resp false = ApiResponse.ok r → containsLatin (resolveReply r) = false →
        sendMessageToAPI "kn" resp false
          = [Effect.request false, Effect.addBot (resolveReply r),
             Effect.speak (resolveReply r) "kn"])
  ∧ (resp false = ApiResponse.httpError →
        requestsOf (sendMessageToAPI "kn" resp false) = [false])
  ∧ (resp false = ApiResponse.netError →
        requestsOf (sendMessageToAPI "kn" resp false) = [false])
  ∧ requestsOf (sendMessageToAPI "kn" resp true) = [true]
  ∧ requestsOf (sendMessageToAPI "en" resp false) = [false] := by
  refine ⟨?_, ?_, ?_, ?_, requestsOf_retried "kn" resp, ?_⟩
  · intro r hr hl
    have hstep : sendMessageToAPI "kn" resp false
        = Effect.request false :: sendMessageToAPI "kn" resp true := by
      rw [sendMessageToAPI, hr]
      simp [hl]
    refine ⟨hstep, ?_⟩
    rw [hstep, requestsOf_cons_request, requestsOf_retried]
  · intro r hr hl
    rw [sendMessageToAPI, hr]
    simp [hl]
  · intro hr
    rw [sendMessageToAPI, hr]
    rfl
  · intro hr
    rw [sendMessageToAPI, hr]
    rfl
  · rw [sendMessageToAPI]
    cases h : resp false with
    | httpError => rfl
    | netError => rfl
    | ok r => simp [requestsOf]

/-- Witness for C2 at concrete response functions: a "kn" call whose first
reply is Latin ("ok") retries and surfaces only the second reply ("ಸರಿ");
a "kn" call with a pure-Kannada reply does not retry; non-2xx and network
failures issue one request; a retried call issues one request; an "en" call
issues one request. -/
theorem sendMessageToAPI_retry_policy_witness :
    sendMessageToAPI "kn"
        (fun b => if b then ApiResponse.ok (some "ಸರಿ") else ApiResponse.ok (some "ok")) false
      = Effect.request false
          :: sendMessageToAPI "kn"
               (fun b => if b then ApiResponse.ok (some "ಸರಿ") else ApiResponse.ok (some "ok")) true
  ∧ sendMessageToAPI "kn" (fun _ => ApiResponse.ok (some "ಸರಿ")) false
      = [Effect.request false, Effect.addBot "ಸರಿ", Effect.speak "ಸರಿ" "kn"]
  ∧ requestsOf (sendMessageToAPI "kn" (fun _ => ApiResponse.httpError) false) = [false]
  ∧ requestsOf (sendMessageToAPI "kn" (fun _ => ApiResponse.netError) false) = [false]
  ∧ requestsOf (sendMessageToAPI "kn" (fun _ => ApiResponse.ok (some "hi")) true) = [true]
  ∧ requestsOf (sendMessageToAPI "en" (fun _ => ApiResponse.ok (some "hi")) false)
      = [false] := by
  refine ⟨?_, ?_, ?_, ?_, ?_, ?_⟩
  · exact ((sendMessageToAPI_retry_policy
      (fun b => if b then ApiResponse.ok (some "ಸರಿ") else ApiResponse.ok (some "ok"))).1
        (some "ok") rfl (by decide)).1
  · have h := (sendMessageToAPI_retry_policy (fun _ => ApiResponse.ok (some "ಸರಿ"))).2.1
      (some "ಸರಿ") rfl (by decide)
    simpa using h
  · exact (sendMessageToAPI_retry_policy (fun _ => ApiResponse.httpError)).2.2.1 rfl
  · exact (sendMessageToAPI_retry_policy (fun _ => ApiResponse.netError)).2.2.2.1 rfl
  · exact (sendMessageToAPI_retry_policy (fun _ => ApiResponse.ok (some "hi"))).2.2.2.2.1
  · exact (sendMessageToAPI_retry_policy (fun _ => ApiResponse.ok (some "hi"))).2.2.2.2.2

/-- C6: when the request receives a non-2xx HTTP status, the call appends
exactly one bot-role entry (the connectivity-error bubble) to the
transcript, never invokes the output coordinator, and issues no retry: its
full effect list is its own request followed by the single error bubble,
for every locale and for both fresh and retried calls. -/
theorem sendMessageToAPI_httpError (lang : String) (resp : Bool → ApiResponse)
    (b : Bool) (h : resp b = ApiResponse.httpError) :
    sendMessageToAPI lang resp b = [Effect.request b, Effect.addBot connErrorMsg]
  ∧ botMsgsOf (sendMessageToAPI lang resp b) = [connErrorMsg]
  ∧ speaksOf (sendMessageToAPI lang resp b) = []
  ∧ requestsOf (sendMessageToAPI lang resp b) = [b] := by
  have hstep : sendMessageToAPI lang resp b
      = [Effect.request b, Effect.addBot connErrorMsg] := by
    rw [sendMessageToAPI, h]
  refine ⟨hstep, ?_, ?_, ?_⟩ <;> rw [hstep] <;> rfl

/-- Witness for C6: a relay call against a backend that answers 500. -/
theorem sendMessageToAPI_httpError_witness :
    sendMessageToAPI "kn" (fun _ => ApiResponse.httpError) false
      = [Effect.request false, Effect.addBot connErrorMsg] :=
  (sendMessageToAPI_httpError "kn" (fun _ => ApiResponse.httpError) false rfl).1

/-- `sliceLast10` keeps `min (length) 10` entries. -/
lemma sliceLast10_length (l : List CtxEntry) :
    (sliceLast10 l).length = min l.length 10 := by
  unfold sliceLast10
  by_cases h : l.length > 10
  · simp only [if_pos h, List.length_drop]
    omega
  · simp only [if_neg h]
    omega

/-- `sliceLast10` only keeps entries of its input. -/
lemma sliceLast10_subset (l : List CtxEntry) : sliceLast10 l ⊆ l := by
  unfold sliceLast10
  by_cases h : l.length > 10
  · simpa [if_pos h] using List.drop_subset (l.length - 10) l
  · simp [if_neg h]

/-- A context whose entries all carry the request's language is not reset. -/
lemma resetOnLangSwitch_eq_of_uniform (ctx : List CtxEntry) (language : String)
    (h : ∀ e ∈ ctx, e.lang = language) :
    resetOnLangSwitch ctx language = ctx := by
  cases ctx with
  | nil => rfl
  | cons e t =>
    have he : e.lang = language := h e (List.mem_cons_self e t)
    simp [resetOnLangSwitch, he]

/-- C7 counterexample: the claim's "after every completed chatbot request"
cap fails on the code.  A request against a full (10-entry) context whose
model call yields no usable reply (a 500 completion) pushes the user entry
and returns before the truncation, leaving 11 entries. -/
theorem cbChatHandler_cap_cex :
    (cbChatHandler ctxTen "en" "hi" none).length = 11
  ∧ ¬ (cbChatHandler ctxTen "en" "hi" none).length ≤ 10 := by decide

/-- C7 amended: after every chatbot request that completes with a model
reply (200), the context holds at most the 10 most recent entries, oldest
evicted first: appending the user and assistant entries to a same-language
context of length 10 leaves exactly the last 10 entries in original order.
(A request failing after the user push leaves the context untruncated, so
the cap does not hold after error completions.) -/
theorem cbChatHandler_window (ctx : List CtxEntry) (language msg reply : String)
    (hmsg : msg ≠ "") :
    (cbChatHandler ctx language msg (some reply)).length ≤ 10
  ∧ (ctx.length = 10 → (∀ e ∈ ctx, e.lang = language) →
      cbChatHandler ctx language msg (some reply)
        = ctx.drop 2
            ++ [⟨"user", msg, language⟩, ⟨"assistant", reply, language⟩]) := by
  constructor
  · rw [cbChatHandler, if_neg hmsg]
    rw [sliceLast10_length]
    omega
  · intro h10 huni
    have hres := resetOnLangSwitch_eq_of_uniform ctx language huni
    simp only [cbChatHandler, if_neg hmsg, hres, sliceLast10]
    have hlen2 : (ctx ++ [(⟨"user", msg, language⟩ : CtxEntry)]
        ++ [(⟨"assistant", reply, language⟩ : CtxEntry)]).length = 12 := by
      simp [h10]
    rw [hlen2, if_pos (by omega)]
    rw [List.append_assoc, List.drop_append_eq_append_drop]
    simp [h10]

/-- Witness for C7 at a concrete full context: a successful request on ten
same-language entries yields ten entries, the two oldest evicted. -/
theorem cbChatHandler_window_witness :
    (cbChatHandler ctxTen "en" "hi" (some "fine")).length ≤ 10
  ∧ cbChatHandler ctxTen "en" "hi" (some "fine")
      = ctxTen.drop 2 ++ [⟨"user", "hi", "en"⟩, ⟨"assistant", "fine", "en"⟩] := by
  have h := cbChatHandler_window ctxTen "en" "hi" "fine" (by decide)
  exact ⟨h.1, h.2 (by decide) (by decide)⟩

/-- The language-switch reset either clears the context or leaves it. -/
lemma resetOnLangSwitch_cases (ctx : List CtxEntry) (language : String) :
    resetOnLangSwitch ctx language = [] ∨ resetOnLangSwitch ctx language = ctx := by
  cases ctx with
  | nil => exact Or.inl rfl
  | cons a t =>
    by_cases h : (a.lang ≠ "" && a.lang ≠ language) = true
    · exact Or.inl (by simp only [resetOnLangSwitch]; rw [if_pos h])
    · exact Or.inr (by simp only [resetOnLangSwitch]; rw [if_neg h])

/-- A nonempty context uniformly tagged with a language different from the
request's is cleared by the reset. -/
lemma resetOnLangSwitch_mismatch (ctx : List CtxEntry) (L language : String)
    (huni : ∀ e ∈ ctx, e.lang = L) (hL : L ≠ "") (hne : L ≠ language)
    (hctx : ctx ≠ []) :
    resetOnLangSwitch ctx language = [] := by
  cases ctx with
  | nil => exact absurd rfl hctx
  | cons a t =>
    have ha : a.lang = L := huni a (List.mem_cons_self a t)
    have hcond : (a.lang ≠ "" && a.lang ≠ language) = true := by
      rw [ha]; simp [hL, hne]
    simp only [resetOnLangSwitch]
    rw [if_pos hcond]

/-- C10: the backend context's language tags are kept uniform.  For a
context whose entries all carry one language tag, a request with a
(possibly different) language and a nonempty message leaves every entry —
on both the success and the failure completion — tagged with the request's
language; and when the stored language differs from the request's, the
whole context is cleared before the user entry is appended, so the request
behaves exactly as on an empty context. -/
theorem cbChatHandler_lang_uniform (ctx : List CtxEntry) (L language msg : String)
    (reply : Option String) (huni : ∀ e ∈ ctx, e.lang = L) (hL : L ≠ "")
    (hmsg : msg ≠ "") :
    (∀ e ∈ cbChatHandler ctx language msg reply, e.lang = language)
  ∧ (ctx ≠ [] → L ≠ language →
      cbChatHandler ctx language msg reply = cbChatHandler [] language msg reply) := by
  have hctx1 : ∀ e ∈ resetOnLangSwitch ctx language, e.lang = language := by
    by_cases hEq : L = language
    · rcases resetOnLangSwitch_cases ctx language with h | h <;> rw [h]
      · intro e he; exact absurd he (List.not_mem_nil e)
      · intro e he; rw [huni e he, hEq]
    · cases hc : ctx with
      | nil => intro e he; rw [resetOnLangSwitch] at he; exact absurd he (List.not_mem_nil e)
      | cons a t =>
        rw [← hc, resetOnLangSwitch_mismatch ctx L language huni hL hEq (by rw [hc]; exact List.cons_ne_nil a t)]
        intro e he; exact absurd he (List.not_mem_nil e)
  constructor
  · intro e he
    cases reply with
    | none =>
      simp only [cbChatHandler, if_neg hmsg] at he
      rcases List.mem_append.mp he with h | h
      · exact hctx1 e h
      · rw [List.mem_singleton.mp h]
    | some r =>
      simp only [cbChatHandler, if_neg hmsg] at he
      have he2 := sliceLast10_subset _ he
      rcases List.mem_append.mp he2 with h | h
      · rcases List.mem_append.mp h with h' | h'
        · exact hctx1 e h'
        · rw [List.mem_singleton.mp h']
      · rw [List.mem_singleton.mp h]
  · intro hctx hne
    have h0 : resetOnLangSwitch ctx language = [] :=
      resetOnLangSwitch_mismatch ctx L language huni hL hne hctx
    cases reply <;> simp only [cbChatHandler, if_neg hmsg, h0] <;> rfl

/-- Witness for C10: a "kn" request over a context holding one "en" entry
yields only "kn"-tagged entries and coincides with the same request over
the empty context. -/
theorem cbChatHandler_lang_uniform_witness :
    (∀ e ∈ cbChatHandler [⟨"user", "x", "en"⟩] "kn" "ಹಾಯ್" (some "ಸರಿ"),
      e.lang = "kn")
  ∧ cbChatHandler [⟨"user", "x", "en"⟩] "kn" "ಹಾಯ್" (some "ಸರಿ")
      = cbChatHandler [] "kn" "ಹಾಯ್" (some "ಸರಿ") := by
  have h := cbChatHandler_lang_uniform [⟨"user", "x", "en"⟩] "en" "kn" "ಹಾಯ್"
    (some "ಸರಿ") (by decide) (by decide) (by decide)
  exact ⟨h.1, h.2 (by decide) (by decide)⟩

/-- C8: voice selection follows the layered heuristic in strict priority
order over the available voices: when some voice matches the locale and a
female-voice-name hint, the first such voice is selected; otherwise, when
some voice matches the locale, the first such; otherwise, when some voice
matches a hint, the first such; otherwise the first available voice, and
`none` when no voice is available — in which case (and in every case) the
utterance handed to the synthesis engine still carries the text and locale
tag, so playback proceeds with the system default. -/
theorem selectFemaleVoiceForLang_priority (voices : List Voice) (lang : String) :
    ((∃ v ∈ voices, (voiceLangMatches v lang && voiceHintMatches v) = true) →
      selectFemaleVoiceForLang voices lang
        = voices.find? fun v => voiceLangMatches v lang && voiceHintMatches v)
  ∧ ((∀ v ∈ voices, (voiceLangMatches v lang && voiceHintMatches v) = false) →
     (∃ v ∈ voices, voiceLangMatches v lang = true) →
      selectFemaleVoiceForLang voices lang
        = voices.find? fun v => voiceLangMatches v lang)
  ∧ ((∀ v ∈ voices, voiceLangMatches v lang = false) →
     (∃ v ∈ voices, voiceHintMatches v = true) →
      selectFemaleVoiceForLang voices lang = voices.find? voiceHintMatches)
  ∧ ((∀ v ∈ voices, voiceLangMatches v lang = false) →
     (∀ v ∈ voices, voiceHintMatches v = false) →
      selectFemaleVoiceForLang voices lang = voices.head?)
  ∧ (∀ (sy : Synth) (text : String),
      speakOut text lang (some sy) voices
        = some ⟨text, if lang = "kn" then "kn-IN" else "en-IN",
                selectFemaleVoiceForLang voices lang⟩) := by
  have hnone : ∀ (p : Voice → Bool), (∀ v ∈ voices, p v = false) →
      voices.find? p = none := by
    intro p h
    rw [List.find?_eq_none]
    intro x hx
    simp [h x hx]
  have hsome : ∀ (p : Voice → Bool), (∃ v ∈ voices, p v = true) →
      ∃ w, voices.find? p = some w := by
    intro p h
    obtain ⟨v, hv, hp⟩ := h
    exact Option.isSome_iff_exists.mp (List.find?_isSome.mpr ⟨v, hv, hp⟩)
  refine ⟨?_, ?_, ?_, ?_, fun sy text => rfl⟩
  · intro h
    obtain ⟨w, hw⟩ := hsome _ h
    unfold selectFemaleVoiceForLang
    rw [hw]
  · intro hall hex
    obtain ⟨w, hw⟩ := hsome _ hex
    unfold selectFemaleVoiceForLang
    rw [hnone _ hall, hw]
  · intro hlang hex
    have hcomb : ∀ v ∈ voices, (voiceLangMatches v lang && voiceHintMatches v) = false :=
      fun v hv => by rw [hlang v hv]; rfl
    obtain ⟨w, hw⟩ := hsome _ hex
    unfold selectFemaleVoiceForLang
    rw [hnone _ hcomb, hnone _ hlang, hw]
  · intro hlang hhint
    have hcomb : ∀ v ∈ voices, (voiceLangMatches v lang && voiceHintMatches v) = false :=
      fun v hv => by rw [hlang v hv]; rfl
    unfold selectFemaleVoiceForLang
    rw [hnone _ hcomb, hnone _ hlang, hnone _ hhint]

/-- Witness for C8: among an English voice with no hint and a Kannada
Google voice, selection for "kn" picks the Kannada Google voice. -/
theorem selectFemaleVoiceForLang_priority_witness :
    selectFemaleVoiceForLang [⟨"en-US", "Bob"⟩, ⟨"kn-IN", "Google Kannada"⟩] "kn"
      = some ⟨"kn-IN", "Google Kannada"⟩ := by
  have h := (selectFemaleVoiceForLang_priority
      [⟨"en-US", "Bob"⟩, ⟨"kn-IN", "Google Kannada"⟩] "kn").1
    ⟨⟨"kn-IN", "Google Kannada"⟩, by decide, by decide⟩
  rw [h]
  decide

end Gramasetu
